import Mathlib

/-!
Shallow embedding of the `nestjs-mongo-migrations` orchestration engine
(`src/migration.service.ts`, `src/migration.schema.ts`,
`src/migration.decorator.ts`, `src/migration.options.ts`).

Modelling conventions:
* The Mongo store is a `List MigrationRecord`; `findOne` is first-match
  lookup and `updateOne`/`document.save()` update the first record with the
  given key (the unique index on `key` declared in `migration.schema.ts`
  makes first-match and by-id updates coincide).
* The store is accessed through the mongoose model compiled from
  `MigrationClass`, whose schema is in default strict mode: paths not
  declared in the schema are stripped from create and update documents, so
  documents carry exactly the schema's fields.  Schema defaults
  (`retryOnError: true`, ...) are applied on create.  Two consequences are
  load-bearing: the registration payload's `retryOnFail` entry
  (`migration.service.ts` line 64) is not a declared path and is never
  persisted (the stored retry flag is the schema's `retryOnError`), and
  `runRecurring`'s `$inc: {runCount: 1}` targets an undeclared path and is
  stripped, so no run counter exists on any document.
* Timestamps are integers (`now` is passed explicitly).
* A migration body is a function from the shared application state (a log,
  `List String`) to `Except String (List String)`: `.error e` models a
  thrown exception whose stored string detail is `e`.
* `mongoose` strips `undefined` values from update documents, so
  `$set: { error: undefined }` in the success paths leaves `error` as the
  empty string written by the claim step; `error = ""` models a cleared /
  absent error.
-/

/-- Status enum from `migration.constants.ts`:
`'pending' | 'running' | 'applied' | 'failed'`. -/
inductive MigrationStatus where
  | pending
  | running
  | applied
  | failed
deriving DecidableEq, Repr

/-- Embedded schedule sub-document (`MigrationSchedule` in
`migration.schema.ts`).  The `at` field is called `atTime` because `at` is a
reserved word in Lean. -/
structure MigrationSchedule where
  atTime : Option Int
  cron : Option String
  timezone : Option String
deriving DecidableEq, Repr

/-- A stored migration document: exactly the paths declared by
`MigrationClass` in `migration.schema.ts` — mongoose strict mode strips
everything else from create and update documents, in particular the
registration payload's `retryOnFail` entry and the `runCount` path
targeted by `runRecurring`'s `$inc`.  `retryOnError` is the schema's
retry flag (default `true`).  `error = ""` means no error recorded. -/
structure MigrationRecord where
  key : String
  serviceName : String
  methodName : String
  status : MigrationStatus
  order : Int
  description : Option String
  runOnInit : Bool
  retryOnError : Bool
  runOnce : Bool
  lastRunAt : Option Int
  error : String
  schedule : MigrationSchedule
deriving DecidableEq, Repr

/-- Options attached by the `@Migration()` decorator
(`MigrationDecoratorOptions` in `migration.options.ts`).  `shouldRun` is the
documented conditional-execution predicate; since it is only ever evaluated
against the fixed process environment we model it by its value there
(`none` = no predicate supplied). -/
structure MigrationDecoratorOptions where
  key : Option String
  order : Option Int
  description : Option String
  retryOnFail : Option Bool
  runOnInit : Option Bool
  runOnce : Option Bool
  scheduleAt : Option Int
  scheduleCron : Option String
  scheduleTimezone : Option String
  shouldRun : Option Bool
deriving Repr

/-- The migrations collection: the list of stored documents. -/
abbrev Store := List MigrationRecord

/-- `Model.findOne(filter)`: first document matching the filter. -/
def findOne (store : Store) (p : MigrationRecord → Bool) : Option MigrationRecord :=
  store.find? p

/-- `Model.updateOne({ key }, ...)` / `document.save()`: update the first
document whose `key` matches (unique by the schema's `key` index). -/
def updateFirst (store : Store) (key : String) (f : MigrationRecord → MigrationRecord) :
    Store :=
  match store with
  | [] => []
  | r :: rs => if r.key = key then f r :: rs else r :: updateFirst rs key f

/-- The registration `payload` object built in `insertOrUpdate`
(`migration.service.ts` lines 56-70), spread over an existing document as
the strict-mode model executes it: the payload's `retryOnFail` entry is
not a declared schema path and is stripped, so only the declared metadata
fields are written; `status`, `lastRunAt`, `error` and the schema's
`retryOnError` are not in the payload and are left untouched. -/
def applyPayload (key serviceName methodName : String)
    (meta : MigrationDecoratorOptions) (r : MigrationRecord) : MigrationRecord :=
  { r with
    key := key
    serviceName := serviceName
    methodName := methodName
    order := meta.order.getD 0
    description := meta.description
    runOnInit := meta.runOnInit.getD true
    runOnce := meta.runOnce.getD true
    schedule := ⟨meta.scheduleAt, meta.scheduleCron, meta.scheduleTimezone⟩ }

/-- A freshly created document before the payload is applied: the explicit
`status: 'pending'` from the `create` call plus the schema defaults of
`migration.schema.ts` (`retryOnError: true`; `lastRunAt`, `error`
absent). -/
def blankPendingRecord : MigrationRecord :=
  { key := ""
    serviceName := ""
    methodName := ""
    status := .pending
    order := 0
    description := none
    runOnInit := true
    retryOnError := true
    runOnce := true
    lastRunAt := none
    error := ""
    schedule := ⟨none, none, none⟩ }

/-- `MigrationsService.insertOrUpdate` (`migration.service.ts` lines 48-84):
look up by key; create `{ ...payload, status: 'pending' }` when absent,
otherwise `updateOne({ key }, { ...payload })`. -/
def insertOrUpdate (store : Store) (key serviceName methodName : String)
    (meta : MigrationDecoratorOptions) : Store :=
  match findOne store (fun r => r.key == key) with
  | none => store ++ [applyPayload key serviceName methodName meta blankPendingRecord]
  | some _ => updateFirst store key (applyPayload key serviceName methodName meta)

/-- A migration body: acts on the shared application state (a log);
`.error e` models a thrown exception with detail `e`. -/
abbrev Body := List String → Except String (List String)

/-- One entry of `allMethods` as built by `discoverAndRegister`: the
discovered provider method together with its decorator metadata and
bound invocable body. -/
structure MethodEntry where
  serviceName : String
  methodName : String
  meta : MigrationDecoratorOptions
  body : Body

/-- The key derivation in `discoverAndRegister`
(`migration.service.ts` line 118): `meta.key ?? serviceName.methodName`. -/
def entryKey (m : MethodEntry) : String :=
  m.meta.key.getD (m.serviceName ++ "." ++ m.methodName)

/-- State threaded through the engine: the store, the shared application
state mutated by migration bodies, and the names registered with the
`SchedulerRegistry` (armed timeouts and cron jobs). -/
structure EngineState where
  store : Store
  log : List String
  timeouts : List String
  crons : List String
deriving DecidableEq, Repr

/-- `MigrationsService.runOne` (`migration.service.ts` lines 132-160):
`findOne({ key, status: { $ne: 'running' } })`; if none, return; otherwise
set `status = 'running'`, `error = ''` and save; invoke the body; on success
`$set { status: 'applied', lastRunAt: now }` (the `error: undefined` entry
is stripped by mongoose); on failure `$set { status: 'failed', error }` and
re-throw.  The `Option String` component is the propagated exception. -/
def runOne (st : EngineState) (key : String) (invoke : Body) (now : Int) :
    EngineState × Option String :=
  match findOne st.store (fun r => r.key == key && r.status != .running) with
  | none => (st, none)
  | some _ =>
    let claimed := updateFirst st.store key
      (fun r => { r with status := .running, error := "" })
    match invoke st.log with
    | .ok log' =>
      let store' := updateFirst claimed key
        (fun r => { r with status := .applied, lastRunAt := some now })
      ({ st with store := store', log := log' }, none)
    | .error e =>
      let store' := updateFirst claimed key
        (fun r => { r with status := .failed, error := e })
      ({ st with store := store' }, some e)

/-- `MigrationsService.runRecurring` (`migration.service.ts` lines 162-191):
identical claim; on success `$set { status: 'pending', lastRunAt: now }` —
the accompanying `$inc { runCount: 1 }` targets a path `MigrationClass`
never declares, so strict mode strips it and no counter is written; on
failure `$set { status: 'failed', error }` and swallow the exception (the
catch block only logs).  The error component is always `none`: nothing is
propagated to the caller. -/
def runRecurring (st : EngineState) (key : String) (invoke : Body) (now : Int) :
    EngineState × Option String :=
  match findOne st.store (fun r => r.key == key && r.status != .running) with
  | none => (st, none)
  | some _ =>
    let claimed := updateFirst st.store key
      (fun r => { r with status := .running, error := "" })
    match invoke st.log with
    | .ok log' =>
      let store' := updateFirst claimed key
        (fun r => { r with status := .pending, lastRunAt := some now })
      ({ st with store := store', log := log' }, none)
    | .error e =>
      let store' := updateFirst claimed key
        (fun r => { r with status := .failed, error := e })
      ({ st with store := store' }, none)

/-- `MigrationsService.scheduleAt` (`migration.service.ts` lines 193-211):
overdue (`delay <= 0`) runs `runOne` immediately but un-awaited
(`void this.runOne(...)` — a rejection is not propagated to the driver);
otherwise a named timeout is registered with the scheduler. -/
def scheduleAt (st : EngineState) (key : String) (whenAt : Int) (invoke : Body)
    (now : Int) : EngineState :=
  if whenAt - now ≤ 0 then (runOne st key invoke now).1
  else { st with timeouts := st.timeouts ++ [s!"migration:timeout:{key}"] }

/-- `MigrationsService.scheduleCron` (`migration.service.ts` lines 213-232):
create, start and register a named cron job. -/
def scheduleCron (st : EngineState) (key : String) : EngineState :=
  { st with crons := st.crons ++ [s!"migration:cron:{key}"] }

/-- The eligibility filter of the driver query (`migration.service.ts`
lines 240-248): `runOnInit: true` and
`$or: [{status: 'pending'}, {status: 'failed', retryOnError: true},
{runOnce: false}]`.  Note it tests the schema field `retryOnError`; the
decorator's `retryOnFail` option is never persisted. -/
def initFilter (r : MigrationRecord) : Bool :=
  r.runOnInit &&
    (r.status == .pending || (r.status == .failed && r.retryOnError) || !r.runOnce)

/-- Stable insertion of a record into a list sorted by ascending `order`. -/
def insertByOrder (r : MigrationRecord) : List MigrationRecord → List MigrationRecord
  | [] => [r]
  | x :: xs => if r.order ≤ x.order then r :: x :: xs else x :: insertByOrder r xs

/-- `.sort({ order: 1 })` (`migration.service.ts` line 249): ascending
stable sort by `order`. -/
def sortByOrder (l : List MigrationRecord) : List MigrationRecord :=
  l.foldr insertByOrder []

/-- The registration phase of `discoverAndRegister`
(`migration.service.ts` lines 86-127): `insertOrUpdate` for every
discovered decorated method, in discovery order. -/
def discoverAndRegister (methods : List MethodEntry) (store : Store) : Store :=
  methods.foldl
    (fun s m => insertOrUpdate s (entryKey m) m.serviceName m.methodName m.meta) store

/-- The per-record dispatch in the body of `initAndMaybeRun`'s loop
(`migration.service.ts` lines 251-276): look up the discovered method by key
(skip when gone); cron schedules arm the cron job and immediately run the
recurring path (which never throws); an `at` schedule arms a one-off
timeout; otherwise run the one-shot path, propagating its exception.
Nothing in this dispatch consults `meta.shouldRun`. -/
def dispatchOne (methods : List MethodEntry) (now : Int) (mig : MigrationRecord)
    (st : EngineState) : EngineState × Option String :=
  match methods.find? (fun i => entryKey i == mig.key) with
  | none => (st, none)
  | some m =>
    if mig.schedule.cron.isSome then
      ((runRecurring (scheduleCron st mig.key) mig.key m.body now).1, none)
    else
      match mig.schedule.atTime with
      | some t => (scheduleAt st mig.key t m.body now, none)
      | none => runOne st mig.key m.body now

/-- The sequential `for await` loop of `initAndMaybeRun`: each record is
dispatched and awaited in turn; a thrown (propagated) exception aborts the
remainder of the loop. -/
def runLoop (methods : List MethodEntry) (now : Int) :
    List MigrationRecord → EngineState → EngineState × Option String
  | [], st => (st, none)
  | mig :: rest, st =>
    match dispatchOne methods now mig st with
    | (st', none) => runLoop methods now rest st'
    | (st', some e) => (st', some e)

/-- `MigrationsService.initAndMaybeRun` (`migration.service.ts` lines
237-278): register every discovered method, query the eligible records
sorted by ascending order (a cursor snapshot), and run the sequential
dispatch loop. -/
def initAndMaybeRun (methods : List MethodEntry) (now : Int) (st : EngineState) :
    EngineState × Option String :=
  let store' := discoverAndRegister methods st.store
  let eligible := sortByOrder (store'.filter initFilter)
  runLoop methods now eligible { st with store := store' }

/-- The engine state of a fresh deployment: empty collection, empty
application state, nothing scheduled. -/
def emptyState : EngineState :=
  { store := [], log := [], timeouts := [], crons := [] }

/-!
Two-process model of the claim step of `runOne`/`runRecurring`
(`migration.service.ts` lines 133-140 and 166-173).  The code performs the
claim as two separate store operations: a read
(`findOne({ key, status: { $ne: 'running' } })`) followed, when a document
was returned, by an unconditional write of that document
(`status = 'running'; error = ''; save()` — the save is keyed by document
id, it is not conditioned on the status still being eligible).  Two
processes running `runOne` on the same key therefore each contribute a
read step and a write step to the store's serialization; any interleaving
of the two programs `[read, write]` is possible.  A process's claim
succeeds (and its body is subsequently invoked) exactly when its read
returned a document, i.e. when `foundI = true`.
-/

/-- Shared store (one contested record) plus each process's local result of
its `findOne` read. -/
structure RaceState where
  doc : MigrationRecord
  found1 : Bool
  found2 : Bool
deriving DecidableEq, Repr

/-- The atomic store operations of the two racing `runOne` claims. -/
inductive RaceOp where
  | read1
  | read2
  | write1
  | write2
deriving DecidableEq, Repr

/-- Semantics of one atomic store operation: a read records whether
`findOne({ status: { $ne: 'running' } })` returned the document; a write
(the `save()` of `migration.service.ts` lines 138-140) sets
`status = 'running'` and clears `error`, unconditionally, whenever the
process's earlier read found a document. -/
def raceStep (s : RaceState) : RaceOp → RaceState
  | .read1 => { s with found1 := s.doc.status != .running }
  | .read2 => { s with found2 := s.doc.status != .running }
  | .write1 =>
    if s.found1 then { s with doc := { s.doc with status := .running, error := "" } }
    else s
  | .write2 =>
    if s.found2 then { s with doc := { s.doc with status := .running, error := "" } }
    else s

/-- Run a serialization of store operations. -/
def raceRun (s : RaceState) (ops : List RaceOp) : RaceState :=
  ops.foldl raceStep s

/-- Program order of process 1's claim: its read precedes its write. -/
def claimProgram1 : List RaceOp := [.read1, .write1]

/-- Program order of process 2's claim. -/
def claimProgram2 : List RaceOp := [.read2, .write2]

/-- `Interleaving l₁ l₂ l`: `l` is an interleaving of `l₁` and `l₂`
(each list's relative order is preserved). -/
inductive Interleaving : List α → List α → List α → Prop where
  | nil : Interleaving [] [] []
  | left {x : α} {xs ys zs : List α} :
      Interleaving xs ys zs → Interleaving (x :: xs) ys (x :: zs)
  | right {y : α} {xs ys zs : List α} :
      Interleaving xs ys zs → Interleaving xs (y :: ys) (y :: zs)

/-- An eligible (pending) record both processes race on. -/
def contestedRecord : MigrationRecord :=
  { blankPendingRecord with key := "k", serviceName := "S", methodName := "m" }

/-- Decorator options for a unit declared with `retryOnFail: false`
(everything else defaulted, key `"c"`). -/
def retryFalseMeta : MigrationDecoratorOptions :=
  { key := some "c", order := none, description := none, retryOnFail := some false,
    runOnInit := none, runOnce := none, scheduleAt := none, scheduleCron := none,
    scheduleTimezone := none, shouldRun := none }

/-- A `retryOnFail: false` unit whose body throws `"boom"`. -/
def failingUnit : MethodEntry :=
  { serviceName := "S", methodName := "m", meta := retryFalseMeta,
    body := fun _ => .error "boom" }

/-- The same unit after the underlying defect was fixed: its body now
succeeds, appending `"retried"` to the log. -/
def healedUnit : MethodEntry :=
  { failingUnit with body := fun l => .ok (l ++ ["retried"]) }

/-- The stored record of `failingUnit` after its first (failed) run:
`status = failed`, `error = "boom"`; the unit's `retryOnFail = false`
declaration left no trace on the document (that payload path is stripped),
and the schema field `retryOnError` consulted by the driver's query holds
its default `true`. -/
def failedNoRetryRecord : MigrationRecord :=
  { key := "c", serviceName := "S", methodName := "m", status := .failed, order := 0,
    description := none, runOnInit := true, retryOnError := true,
    runOnce := true, lastRunAt := none, error := "boom",
    schedule := ⟨none, none, none⟩ }

/-- Decorator options carrying a `shouldRun` predicate that evaluates to
`false` (key `"s"`, everything else defaulted). -/
def shouldRunFalseMeta : MigrationDecoratorOptions :=
  { key := some "s", order := none, description := none, retryOnFail := none,
    runOnInit := none, runOnce := none, scheduleAt := none, scheduleCron := none,
    scheduleTimezone := none, shouldRun := some false }

/-- A unit guarded by `shouldRun ≡ false` whose body appends `"ran"`. -/
def guardedUnit : MethodEntry :=
  { serviceName := "S", methodName := "m", meta := shouldRunFalseMeta,
    body := fun l => .ok (l ++ ["ran"]) }

/-- An `applied` record of a one-shot (`runOnce = true`) unit. -/
def appliedOnceRecord : MigrationRecord :=
  { blankPendingRecord with key := "k", status := .applied }

/-- C1: the claim is NOT a single atomic conditional update: `runOne`
performs it as a `findOne` read followed by an unconditional `save` write.
In the store serialization `read₁, read₂, write₁, write₂` — a legal
interleaving of the two processes' claim programs — both processes' reads
return the eligible pending document, so both claims succeed and both
processes go on to execute the body, contradicting the claimed
exactly-one-successful-claim guarantee. -/
theorem runOne_nonatomic_claim_race :
    Interleaving claimProgram1 claimProgram2
      [RaceOp.read1, RaceOp.read2, RaceOp.write1, RaceOp.write2] ∧
    (raceRun ⟨contestedRecord, false, false⟩
      [RaceOp.read1, RaceOp.read2, RaceOp.write1, RaceOp.write2]).found1 = true ∧
    (raceRun ⟨contestedRecord, false, false⟩
      [RaceOp.read1, RaceOp.read2, RaceOp.write1, RaceOp.write2]).found2 = true := by
  refine ⟨?_, by decide, by decide⟩
  exact .left (.right (.left (.right .nil)))

/-- C2: a unit registered with `retryOnFail = false` whose body failed is
selected again by the driver's eligibility query and re-invoked by the next
`initAndMaybeRun`: the first run leaves the record `failed` (the
`retryOnFail = false` declaration is never persisted, so the schema field
`retryOnError` still holds its default `true`), the query filter accepts
that record, and the second run re-invokes the body, ending `applied`. -/
theorem retryOnFail_false_unit_is_retried :
    initAndMaybeRun [failingUnit] 1 emptyState =
      ({ store := [failedNoRetryRecord], log := [], timeouts := [], crons := [] },
        some "boom") ∧
    initFilter failedNoRetryRecord = true ∧
    initAndMaybeRun [healedUnit] 2
        { store := [failedNoRetryRecord], log := [], timeouts := [], crons := [] } =
      ({ store := [{ failedNoRetryRecord with
                       status := .applied, error := "", lastRunAt := some 2 }],
         log := ["retried"], timeouts := [], crons := [] }, none) := by
  refine ⟨by decide, by decide, by decide⟩

/-- C3: the driver never consults `shouldRun`: a unit whose `shouldRun`
predicate evaluates to `false` is nevertheless invoked by
`initAndMaybeRun` (its body's side effect `"ran"` is committed) and its
record is transitioned to `applied` with `lastRunAt` set. -/
theorem shouldRun_false_unit_still_runs :
    guardedUnit.meta.shouldRun = some false ∧
    initAndMaybeRun [guardedUnit] 5 emptyState =
      ({ store := [{ blankPendingRecord with
                       key := "s", serviceName := "S", methodName := "m",
                       status := .applied, lastRunAt := some 5 }],
         log := ["ran"], timeouts := [], crons := [] }, none) := by
  refine ⟨rfl, by decide⟩

/-- C5 counterexample: the claim succeeds from status `applied` even for a
one-shot (`runOnce = true`) unit: `runOne` claims the record (its filter is
only `status ≠ running`) and invokes the body (the log receives `"ran"`),
whereas the claim asserts that for `applied` with `runOnce = true` the
claim fails and the body is not invoked. -/
theorem runOne_claims_applied_runOnce_record :
    appliedOnceRecord.runOnce = true ∧ appliedOnceRecord.status = .applied ∧
    runOne { store := [appliedOnceRecord], log := [], timeouts := [], crons := [] }
        "k" (fun l => .ok (l ++ ["ran"])) 7 =
      ({ store := [{ appliedOnceRecord with
                       status := .applied, error := "", lastRunAt := some 7 }],
         log := ["ran"], timeouts := [], crons := [] }, none) := by
  refine ⟨rfl, rfl, by decide⟩

/-- Registering the same key N times: `insertOrUpdate` folded over a list of
descriptors (the registration phase restricted to one key). -/
def registerAll (key serviceName methodName : String)
    (metas : List MigrationDecoratorOptions) (store : Store) : Store :=
  metas.foldl (fun s meta => insertOrUpdate s key serviceName methodName meta) store

/-- Applying a later registration payload over an earlier one overwrites all
the metadata fields: only the last one survives. -/
theorem applyPayload_applyPayload (key sn mn : String)
    (t t' : MigrationDecoratorOptions) (r : MigrationRecord) :
    applyPayload key sn mn t (applyPayload key sn mn t' r) = applyPayload key sn mn t r :=
  rfl

/-- `insertOrUpdate` on a store holding exactly one record with the key
updates it in place with the payload. -/
theorem insertOrUpdate_found (key sn mn : String) (m : MigrationDecoratorOptions)
    (r : MigrationRecord) (hr : r.key = key) :
    insertOrUpdate [r] key sn mn m = [applyPayload key sn mn m r] := by
  simp [insertOrUpdate, findOne, List.find?, updateFirst, hr]

/-- Folding further registrations over a single already-registered record
leaves one record carrying the last payload. -/
theorem registerAll_single (key sn mn : String)
    (metas : List MigrationDecoratorOptions) :
    ∀ (t : MigrationDecoratorOptions) (r : MigrationRecord),
      registerAll key sn mn metas [applyPayload key sn mn t r] =
        [applyPayload key sn mn (metas.getLastD t) r] := by
  induction metas with
  | nil => intro t r; simp [registerAll]
  | cons m ms ih =>
    intro t r
    have h1 : insertOrUpdate [applyPayload key sn mn t r] key sn mn m =
        [applyPayload key sn mn m r] := by
      rw [insertOrUpdate_found key sn mn m (applyPayload key sn mn t r) rfl,
        applyPayload_applyPayload]
    simp only [registerAll, List.foldl_cons] at ih ⊢
    rw [h1, ih m r, List.getLastD_cons]

/-- Decorator options identical to `retryFalseMeta` but with the retry
flag left at its default. -/
def retryDefaultMeta : MigrationDecoratorOptions :=
  { retryFalseMeta with retryOnFail := none }

/-- The single document left by registering key `"c"` and then
re-registering it with `retryOnFail = false`: the only retry field it
carries is the schema's `retryOnError`, still at its creation default
`true`. -/
def reregisteredNoRetryRecord : MigrationRecord :=
  { key := "c", serviceName := "S", methodName := "m", status := .pending, order := 0,
    description := none, runOnInit := true, retryOnError := true,
    runOnce := true, lastRunAt := none, error := "",
    schedule := ⟨none, none, none⟩ }

/-- C4 counterexample: re-registration does NOT update the stored retry
flag to the latest descriptor.  After registering key `"c"` and then
re-registering it with `retryOnFail = false`, the document's only retry
field — the schema's `retryOnError` — still holds its creation default
`true`: the descriptor's `retryOnFail` is not a declared schema path, so
mongoose strict mode strips it from both the create and the update,
contradicting the claim that every subsequent registration updates the
metadata field `retryOnFail` to the latest descriptor. -/
theorem registration_retryOnFail_not_persisted :
    retryFalseMeta.retryOnFail = some false ∧
    registerAll "c" "S" "m" [retryDefaultMeta, retryFalseMeta] [] =
      [reregisteredNoRetryRecord] ∧
    reregisteredNoRetryRecord.retryOnError = true := by
  refine ⟨rfl, by decide, rfl⟩

/-- C4 (amended): registration is idempotent.  (1) Registering a key
N ≥ 1 times on a fresh store yields exactly one record, namely the freshly
created `status = pending` document carrying the payload of the LAST
registration; (2) re-registering an existing record (whatever its current
execution state) replaces it in place by the payload applied to it; (3)
the payload updates exactly the persisted metadata fields (order,
description, runOnInit, runOnce, schedule, serviceName, methodName) and
leaves `status`, `lastRunAt`, `error` and the stored retry flag
`retryOnError` untouched — the descriptor's `retryOnFail` is never
persisted because it is not a declared schema path, and no `runCount`
path exists on documents at all. -/
theorem insertOrUpdate_registration_idempotent :
    (∀ (key sn mn : String) (m : MigrationDecoratorOptions)
        (ms : List MigrationDecoratorOptions),
      registerAll key sn mn (m :: ms) [] =
        [applyPayload key sn mn (ms.getLastD m) blankPendingRecord]) ∧
    (∀ (key sn mn : String) (m : MigrationDecoratorOptions) (r : MigrationRecord),
      insertOrUpdate [{ r with key := key }] key sn mn m =
        [applyPayload key sn mn m { r with key := key }]) ∧
    (∀ (key sn mn : String) (m : MigrationDecoratorOptions) (r : MigrationRecord),
      (applyPayload key sn mn m r).status = r.status ∧
      (applyPayload key sn mn m r).lastRunAt = r.lastRunAt ∧
      (applyPayload key sn mn m r).error = r.error ∧
      (applyPayload key sn mn m r).retryOnError = r.retryOnError ∧
      (applyPayload key sn mn m r).order = m.order.getD 0 ∧
      (applyPayload key sn mn m r).description = m.description ∧
      (applyPayload key sn mn m r).runOnInit = m.runOnInit.getD true ∧
      (applyPayload key sn mn m r).runOnce = m.runOnce.getD true ∧
      (applyPayload key sn mn m r).serviceName = sn ∧
      (applyPayload key sn mn m r).methodName = mn ∧
      (applyPayload key sn mn m r).schedule =
        ⟨m.scheduleAt, m.scheduleCron, m.scheduleTimezone⟩) := by
  refine ⟨?_, ?_, ?_⟩
  · intro key sn mn m ms
    have h0 : insertOrUpdate [] key sn mn m =
        [applyPayload key sn mn m blankPendingRecord] := by
      simp [insertOrUpdate, findOne]
    simp only [registerAll, List.foldl_cons] at *
    rw [h0]
    exact registerAll_single key sn mn ms m blankPendingRecord
  · intro key sn mn m r
    exact insertOrUpdate_found key sn mn m { r with key := key } rfl
  · intro key sn mn m r
    exact ⟨rfl, rfl, rfl, rfl, rfl, rfl, rfl, rfl, rfl, rfl, rfl⟩

/-- A record already being executed (status `running`). -/
def runningRecord : MigrationRecord :=
  { blankPendingRecord with key := "k", status := .running }

/-- A failed record of a unit declared with `retryOnFail = false` (the
declaration leaves no trace on the document; only the stale error and the
`failed` status do). -/
def failedEvenNoRetry : MigrationRecord :=
  { blankPendingRecord with
    key := "k", status := .failed, error := "old" }

/-- C5 (amended): `runOne`'s claim only requires the record not to be
`running`: on a store holding the record, the claim fails (store untouched,
body not invoked) exactly when the record is `running`; from every other
status — regardless of `runOnce`, `retryOnFail`, `applied` or `failed` —
the claim succeeds, transitions the record through `running` (clearing
`error`) and invokes the body, ending `applied` (success) or `failed` with
the error detail (failure, propagated). -/
theorem runOne_claim_only_requires_not_running
    (r : MigrationRecord) (b : Body) (lg t c : List String) (now : Int) :
    (r.status = .running →
      runOne { store := [r], log := lg, timeouts := t, crons := c } r.key b now =
        ({ store := [r], log := lg, timeouts := t, crons := c }, none)) ∧
    (r.status ≠ .running →
      runOne { store := [r], log := lg, timeouts := t, crons := c } r.key b now =
        (match b lg with
         | .ok l' =>
           ({ store := [{ r with
                            status := .applied, error := "",
                            lastRunAt := some now }],
              log := l', timeouts := t, crons := c }, none)
         | .error e =>
           ({ store := [{ r with status := .failed, error := e }],
              log := lg, timeouts := t, crons := c }, some e))) := by
  constructor
  · intro hs
    simp [runOne, findOne, List.find?, hs]
  · intro hs
    have hbne : (r.status != MigrationStatus.running) = true := bne_iff_ne.mpr hs
    have hfind : findOne [r] (fun x => x.key == r.key && x.status != .running) =
        some r := by
      simp [findOne, List.find?, hbne]
    cases hb : b lg with
    | ok l' => simp [runOne, hfind, updateFirst, hb]
    | error e => simp [runOne, hfind, updateFirst, hb]

/-- Witness for `runOne_claim_only_requires_not_running` at concrete
records: the claim fails on a `running` record, and it succeeds — invoking
the body — on a `failed` record declared with `retryOnFail = false`. -/
theorem runOne_claim_only_requires_not_running_witness :
    runningRecord.status = .running ∧
    runOne { store := [runningRecord], log := [], timeouts := [], crons := [] }
        "k" (fun l => .ok (l ++ ["x"])) 3 =
      ({ store := [runningRecord], log := [], timeouts := [], crons := [] }, none) ∧
    failedEvenNoRetry.status ≠ .running ∧
    runOne { store := [failedEvenNoRetry], log := [], timeouts := [], crons := [] }
        "k" (fun l => .ok (l ++ ["x"])) 3 =
      ({ store := [{ failedEvenNoRetry with
                       status := .applied, error := "", lastRunAt := some 3 }],
         log := ["x"], timeouts := [], crons := [] }, none) := by
  refine ⟨rfl, ?_, by decide, ?_⟩
  · exact (runOne_claim_only_requires_not_running runningRecord
      (fun l => .ok (l ++ ["x"])) [] [] [] 3).1 rfl
  · simpa using (runOne_claim_only_requires_not_running failedEvenNoRetry
      (fun l => .ok (l ++ ["x"])) [] [] [] 3).2 (by decide)

/-- A recurring (`runOnce = false`) record that previously failed, with a
stale error. -/
def recurringFailedRecord : MigrationRecord :=
  { blankPendingRecord with
    key := "d", status := .failed, runOnce := false, error := "stale" }

/-- A pending recurring (`runOnce = false`) record. -/
def recurringPendingRecord : MigrationRecord :=
  { blankPendingRecord with key := "d", runOnce := false }

/-- C8: a recurring (`runOnce = false`) unit whose body succeeds after a
successful claim is reset to `pending` (not `applied`) with `lastRunAt`
set and `error` cleared, but `runCount` is NOT incremented by 1: the
success update's `$inc { runCount: 1 }` targets a path the
`MigrationClass` schema never declares, so mongoose strict mode strips it
and the resulting document — shown here in full — carries no run counter
at all.  The claimed increment does not happen. -/
theorem runRecurring_success_increment_stripped :
    (recurringFailedRecord.runOnce = false ∧
      recurringFailedRecord.status ≠ .running) ∧
    runRecurring
        { store := [recurringFailedRecord], log := [], timeouts := [], crons := [] }
        "d" (fun l => .ok (l ++ ["tick"])) 9 =
      ({ store := [{ recurringFailedRecord with
                       status := .pending, error := "", lastRunAt := some 9 }],
         log := ["tick"], timeouts := [], crons := [] }, none) := by
  refine ⟨⟨rfl, by decide⟩, by decide⟩

/-- C9: a recurring unit whose body throws after a successful claim is
marked `failed` with the error detail stored, and `runRecurring` returns
normally (error component `none`): nothing is propagated to the caller, so
the driver loop and the armed cron job carry on. -/
theorem runRecurring_failure_swallowed
    (r : MigrationRecord) (b : Body) (lg t c : List String) (e : String) (now : Int)
    (_hro : r.runOnce = false) (hs : r.status ≠ .running) (hb : b lg = .error e) :
    runRecurring { store := [r], log := lg, timeouts := t, crons := c } r.key b now =
      ({ store := [{ r with status := .failed, error := e }],
         log := lg, timeouts := t, crons := c }, none) := by
  have hbne : (r.status != MigrationStatus.running) = true := bne_iff_ne.mpr hs
  have hfind : findOne [r] (fun x => x.key == r.key && x.status != .running) =
      some r := by
    simp [findOne, List.find?, hbne]
  simp [runRecurring, hfind, updateFirst, hb]

/-- Witness for `runRecurring_failure_swallowed` at a concrete pending
recurring record whose body throws `"cron-boom"`. -/
theorem runRecurring_failure_swallowed_witness :
    (recurringPendingRecord.runOnce = false ∧
      recurringPendingRecord.status ≠ .running) ∧
    runRecurring
        { store := [recurringPendingRecord], log := [], timeouts := [], crons := [] }
        "d" (fun _ => .error "cron-boom") 9 =
      ({ store := [{ recurringPendingRecord with
                       status := .failed, error := "cron-boom" }],
         log := [], timeouts := [], crons := [] }, none) := by
  refine ⟨⟨rfl, by decide⟩, ?_⟩
  exact runRecurring_failure_swallowed recurringPendingRecord
    (fun _ => .error "cron-boom") [] [] [] "cron-boom" 9 rfl (by decide) rfl

/-- C10: when no record with the key is eligible — the key is absent from
the store or every record with it is already `running` — both `runOne` and
`runRecurring` return normally without invoking the body, without raising
an error, and without changing anything: the engine state is returned
untouched and no exception is propagated. -/
theorem runOne_runRecurring_skip_missing_or_running
    (st : EngineState) (key : String) (b : Body) (now : Int)
    (h : ∀ r ∈ st.store, r.key = key → r.status = .running) :
    runOne st key b now = (st, none) ∧ runRecurring st key b now = (st, none) := by
  have hfind : findOne st.store (fun r => r.key == key && r.status != .running) =
      none := by
    rw [findOne, List.find?_eq_none]
    intro r hr
    by_cases hk : r.key = key
    · simp [hk, h r hr hk]
    · simp [hk]
  constructor
  · simp [runOne, hfind]
  · simp [runRecurring, hfind]

/-- Witness for `runOne_runRecurring_skip_missing_or_running`: a store
whose only record with a matching key is already `running` (and a second
call on a key with no record at all). -/
theorem runOne_runRecurring_skip_missing_or_running_witness :
    (∀ r ∈ [runningRecord], r.key = "k" → r.status = .running) ∧
    runOne { store := [runningRecord], log := [], timeouts := [], crons := [] }
        "k" (fun l => .ok (l ++ ["x"])) 2 =
      ({ store := [runningRecord], log := [], timeouts := [], crons := [] }, none) ∧
    runRecurring { store := [runningRecord], log := [], timeouts := [], crons := [] }
        "absent" (fun l => .ok (l ++ ["x"])) 2 =
      ({ store := [runningRecord], log := [], timeouts := [], crons := [] }, none) := by
  refine ⟨by decide, ?_, ?_⟩
  · exact (runOne_runRecurring_skip_missing_or_running
      { store := [runningRecord], log := [], timeouts := [], crons := [] }
      "k" (fun l => .ok (l ++ ["x"])) 2 (by decide)).1
  · exact (runOne_runRecurring_skip_missing_or_running
      { store := [runningRecord], log := [], timeouts := [], crons := [] }
      "absent" (fun l => .ok (l ++ ["x"])) 2 (by decide)).2

/-- A discovered inline (non-scheduled) unit with an explicit key and
order. -/
def mkInline (k : String) (o : Int) (b : Body) : MethodEntry :=
  { serviceName := "S", methodName := "m",
    meta := { key := some k, order := some o, description := none,
              retryOnFail := none, runOnInit := none, runOnce := none,
              scheduleAt := none, scheduleCron := none, scheduleTimezone := none,
              shouldRun := none },
    body := b }

/-- The record freshly registered for `mkInline k o _`. -/
def inlineRecord (k : String) (o : Int) : MigrationRecord :=
  { blankPendingRecord with
    key := k, serviceName := "S", methodName := "m", order := o }

/-- C6: inline (non-scheduled) units run sequentially in ascending order
within one `initAndMaybeRun`: with two fresh units of orders `o₁ < o₂`, the
first unit's body runs and its success is committed before the second
unit's body starts — the second body observes the log produced by the
first — and afterwards both records are `applied` with `lastRunAt` set. -/
theorem initAndMaybeRun_inline_ascending_order
    (k₁ k₂ : String) (o₁ o₂ : Int) (b₁ b₂ : Body) (l₁ l₂ : List String) (now : Int)
    (hk : k₁ ≠ k₂) (ho : o₁ < o₂) (hb₁ : b₁ [] = .ok l₁) (hb₂ : b₂ l₁ = .ok l₂) :
    initAndMaybeRun [mkInline k₁ o₁ b₁, mkInline k₂ o₂ b₂] now emptyState =
      ({ store := [{ inlineRecord k₁ o₁ with status := .applied, lastRunAt := some now },
                   { inlineRecord k₂ o₂ with status := .applied, lastRunAt := some now }],
         log := l₂, timeouts := [], crons := [] }, none) := by
  have hk' : (k₁ == k₂) = false := beq_eq_false_iff_ne.mpr hk
  have hk'' : (k₂ == k₁) = false := beq_eq_false_iff_ne.mpr (Ne.symm hk)
  have hne : k₂ ≠ k₁ := Ne.symm hk
  have hpr : (MigrationStatus.pending != MigrationStatus.running) = true := rfl
  simp [initAndMaybeRun, discoverAndRegister, insertOrUpdate, findOne, List.find?,
    entryKey, mkInline, applyPayload, blankPendingRecord, initFilter, sortByOrder,
    insertByOrder, runLoop, dispatchOne, runOne, updateFirst, inlineRecord, emptyState,
    scheduleAt, scheduleCron, hk', hk'', hk, hne, hpr, ho.le, hb₁, hb₂]

/-- Witness for `initAndMaybeRun_inline_ascending_order`: Scenario A of the
spec — keys `"a"`/`"b"`, orders `5`/`10`, bodies appending their keys.  The
final log is `["a", "b"]` and both records are `applied`. -/
theorem initAndMaybeRun_inline_ascending_order_witness :
    initAndMaybeRun
        [mkInline "a" 5 (fun l => .ok (l ++ ["a"])),
         mkInline "b" 10 (fun l => .ok (l ++ ["b"]))] 0 emptyState =
      ({ store := [{ inlineRecord "a" 5 with status := .applied, lastRunAt := some 0 },
                   { inlineRecord "b" 10 with status := .applied, lastRunAt := some 0 }],
         log := ["a", "b"], timeouts := [], crons := [] }, none) := by
  exact initAndMaybeRun_inline_ascending_order "a" "b" 5 10
    (fun l => .ok (l ++ ["a"])) (fun l => .ok (l ++ ["b"]))
    ["a"] ["a", "b"] 0 (by decide) (by decide) rfl rfl

/-- C7: a one-shot unit whose body throws fails fatally for that driver
run: with two fresh inline units of orders `o₁ < o₂` where the first body
throws `e`, the first record ends `failed` with the error detail stored,
the exception is propagated out of `initAndMaybeRun` (`some e`), and the
second unit is never invoked — its record is still the freshly registered
pending one and the log is untouched. -/
theorem initAndMaybeRun_oneshot_failure_aborts_loop
    (k₁ k₂ : String) (o₁ o₂ : Int) (b₁ b₂ : Body) (e : String) (now : Int)
    (hk : k₁ ≠ k₂) (ho : o₁ < o₂) (hb₁ : b₁ [] = .error e) :
    initAndMaybeRun [mkInline k₁ o₁ b₁, mkInline k₂ o₂ b₂] now emptyState =
      ({ store := [{ inlineRecord k₁ o₁ with status := .failed, error := e },
                   inlineRecord k₂ o₂],
         log := [], timeouts := [], crons := [] }, some e) := by
  have hk' : (k₁ == k₂) = false := beq_eq_false_iff_ne.mpr hk
  have hk'' : (k₂ == k₁) = false := beq_eq_false_iff_ne.mpr (Ne.symm hk)
  have hne : k₂ ≠ k₁ := Ne.symm hk
  have hpr : (MigrationStatus.pending != MigrationStatus.running) = true := rfl
  simp [initAndMaybeRun, discoverAndRegister, insertOrUpdate, findOne, List.find?,
    entryKey, mkInline, applyPayload, blankPendingRecord, initFilter, sortByOrder,
    insertByOrder, runLoop, dispatchOne, runOne, updateFirst, inlineRecord, emptyState,
    scheduleAt, scheduleCron, hk', hk'', hk, hne, hpr, ho.le, hb₁]

/-- Witness for `initAndMaybeRun_oneshot_failure_aborts_loop`: Scenario B —
unit `"c"` (order 1) throws `"boom"`; a later unit `"d"` (order 2) is never
invoked; the run rejects with `"boom"`. -/
theorem initAndMaybeRun_oneshot_failure_aborts_loop_witness :
    initAndMaybeRun
        [mkInline "c" 1 (fun _ => .error "boom"),
         mkInline "d" 2 (fun l => .ok (l ++ ["d"]))] 0 emptyState =
      ({ store := [{ inlineRecord "c" 1 with status := .failed, error := "boom" },
                   inlineRecord "d" 2],
         log := [], timeouts := [], crons := [] }, some "boom") := by
  exact initAndMaybeRun_oneshot_failure_aborts_loop "c" "d" 1 2
    (fun _ => .error "boom") (fun l => .ok (l ++ ["d"])) "boom" 0
    (by decide) (by decide) rfl
